import Mathlib

/-!
Shallow embedding of the import/export cycle-detection engine of the
account layer (subject pattern matcher, account/import model, cycle
detector, configuration-time validation) and of the Linux TCP socket
diagnostics entry point, together with proofs of the checked properties.
-/

/-- A token of a hierarchical subject pattern: a literal, the single-token
wildcard, or the trailing multi-token wildcard. -/
inductive Tok where
  | lit (s : String)
  | star
  | gt
deriving DecidableEq

/-- Splits a character list at the subject delimiter, accumulating the
characters of the current token in reverse. -/
def splitTokens : List Char → List Char → List String
  | [], acc => [String.mk acc.reverse]
  | c :: cs, acc =>
    if c = '.' then String.mk acc.reverse :: splitTokens cs []
    else splitTokens cs (c :: acc)

/-- Modelled from the spec: tokenization of a subject pattern (§3), a
string of tokens separated by the delimiter, where a token is a literal,
the single-token wildcard, or the trailing wildcard. The repository's
subject matching code is not among the provided sources; only its tests
are, so the matcher is reconstructed from §4.1. -/
def tokenize (p : String) : List Tok :=
  (splitTokens p.data []).map fun t =>
    if t = "*" then Tok.star else if t = ">" then Tok.gt else Tok.lit t

/-- Modelled from the spec: the pairwise token walk of `overlaps` (§4.1).
A trailing wildcard on either side absorbs any remaining suffix, the
single-token wildcard is compatible with any single token at the same
position, literals must be equal, and a length mismatch without a
trailing wildcard at the point of exhaustion means no overlap. -/
def overlapsT : List Tok → List Tok → Bool
  | [], [] => true
  | [], b :: _ => decide (b = Tok.gt)
  | a :: _, [] => decide (a = Tok.gt)
  | a :: as, b :: bs =>
    if a = Tok.gt ∨ b = Tok.gt then true
    else if a = Tok.star ∨ b = Tok.star then overlapsT as bs
    else decide (a = b) && overlapsT as bs

/-- Modelled from the spec: `overlaps(P, Q)` (§4.1) — whether two subject
patterns admit at least one common concrete subject. -/
def overlaps (p q : String) : Bool :=
  overlapsT (tokenize p) (tokenize q)

/-- A single token is valid when a literal is nonempty. -/
def validTok : Tok → Bool
  | Tok.lit s => !s.isEmpty
  | _ => true

/-- Modelled from the spec: well-formedness of a token sequence (§3) —
nonempty, every literal token nonempty, and the trailing wildcard legal
only as the final token. -/
def wellFormedToks : List Tok → Bool
  | [] => false
  | [t] => validTok t
  | t :: rest => validTok t && decide (t ≠ Tok.gt) && wellFormedToks rest

/-- A well-formed subject pattern (§3). -/
def wellFormed (p : String) : Bool :=
  wellFormedToks (tokenize p)

/-- The two sharing kinds (§3). -/
inductive Kind where
  | stream
  | service
deriving DecidableEq

/-- Modelled from the spec: an export declaration (§3). The account layer
itself is not among the provided sources; only its tests are. -/
structure Export where
  kind : Kind
  subject : String
deriving DecidableEq

/-- Modelled from the spec: an import declaration (§3): the kind, the
external subject requested from the source account, the source account
reference, and the optional local rename. -/
structure Import where
  kind : Kind
  subject : String
  sourceAccount : String
  localAlias : Option String
deriving DecidableEq

/-- Modelled from the spec: an account with its identifier and its ordered
export and import sequences (§3). -/
structure Account where
  id : String
  exports : List Export
  imports : List Import
deriving DecidableEq

/-- The local alias of an import, defaulting to its external subject (§3). -/
def importAlias (j : Import) : String :=
  j.localAlias.getD j.subject

/-- Resolution of a source-account reference through the lookup table (§9). -/
def lookupAccount (model : List Account) (x : String) : Option Account :=
  model.find? fun acct => decide (acct.id = x)

/-- Modelled from the spec: the depth-first search of the cycle detector
(§4.2), written with an explicit fuel argument so that the recursion is
structural; the termination theorem below shows any fuel above the
account count gives the fixed verdict. At account `x` with the tracked
subject: reaching the original importer is a cycle, a revisited other
account stops the branch, and otherwise every same-kind import whose
local alias overlaps the tracked subject is followed into its source
account with that import's own external subject as the next tracked
subject. -/
def searchF (model : List Account) (origin : String) (k : Kind) :
    Nat → List String → String → String → Bool
  | 0, _, _, _ => false
  | fuel + 1, visited, x, tracked =>
    if x = origin then true
    else if x ∈ visited then false
    else
      match lookupAccount model x with
      | none => false
      | some acct =>
        acct.imports.any fun j =>
          decide (j.kind = k) && overlaps (importAlias j) tracked &&
            searchF model origin k fuel (x :: visited) j.sourceAccount j.subject

/-- Modelled from the spec: `FormsCycle(A, K, S, B)` (§4.2) — whether
fulfilling account `a`'s demand for subject `s` from account `b`
transitively routes back through `a`. The visited set is seeded with the
original importer and the fuel budget is the account count. -/
def FormsCycle (model : List Account) (a : String) (k : Kind) (s : String) (b : String) : Bool :=
  searchF model a k (model.length + 1) [a] b s

/-- Appends an import to its owning account (§3: append-only construction). -/
def addImport (model : List Account) (owner : String) (im : Import) : List Account :=
  model.map fun acct =>
    if acct.id = owner then { acct with imports := acct.imports ++ [im] } else acct

/-- One validation-and-construction pass: each import in the list is
checked with `FormsCycle` against the model built so far and, when no
cycle is reported, appended to its owning account; a detected cycle
aborts the whole configuration (§4.3). -/
def processDecls (model : List Account) : List (String × Import) → Bool
  | [] => true
  | (owner, im) :: rest =>
    !FormsCycle model owner im.kind im.subject im.sourceAccount &&
      processDecls (addImport model owner im) rest

/-- Modelled from the spec: configuration processing (§4.3 and §6) — each
declared import is validated with `FormsCycle` as it
is added during construction, starting from the accounts with their
exports and no imports; the result is `true` exactly when the whole
configuration is accepted. The spec fixes no construction order; the
order used here, which adds later-declared imports first, is the one
under which §4.2 reproduces all of §8's scenario verdicts and the
repository's account-cycle tests. -/
def processConfig (base : List Account) (decls : List (String × Import)) : Bool :=
  processDecls base decls.reverse

/-! Concrete account models for the scenarios of §8 that the repository's
account-cycle tests exercise. Each scenario has the base model built from
the accounts and their exports, the import declarations in configuration
order, and, where the claims evaluate `FormsCycle` directly, the fully
built model. -/

/-- Scenario 1 of §8: accounts A and B, before imports are added. -/
def baseS1 : List Account :=
  [⟨"A", [⟨Kind.service, "help"⟩], []⟩, ⟨"B", [⟨Kind.service, "help"⟩], []⟩]

/-- Scenario 1 of §8: A imports service help from B and B imports service
help from A. -/
def declsS1 : List (String × Import) :=
  [("A", ⟨Kind.service, "help", "B", none⟩), ("B", ⟨Kind.service, "help", "A", none⟩)]

/-- Scenario 1 of §8, fully built. -/
def modelS1 : List Account :=
  [⟨"A", [⟨Kind.service, "help"⟩], [⟨Kind.service, "help", "B", none⟩]⟩,
   ⟨"B", [⟨Kind.service, "help"⟩], [⟨Kind.service, "help", "A", none⟩]⟩]

/-- Scenario 4 of §8: accounts A, B and C, before imports are added. -/
def baseS4 : List Account :=
  [⟨"A", [⟨Kind.service, "*"⟩], []⟩, ⟨"B", [⟨Kind.service, "help"⟩], []⟩,
   ⟨"C", [⟨Kind.service, "*"⟩], []⟩]

/-- Scenario 4 of §8: A imports help from B, B imports nohelp from C, and
C imports the single-token wildcard from A. -/
def declsS4 : List (String × Import) :=
  [("A", ⟨Kind.service, "help", "B", none⟩), ("B", ⟨Kind.service, "nohelp", "C", none⟩),
   ("C", ⟨Kind.service, "*", "A", none⟩)]

/-- Scenario 4 of §8, fully built. -/
def modelS4 : List Account :=
  [⟨"A", [⟨Kind.service, "*"⟩], [⟨Kind.service, "help", "B", none⟩]⟩,
   ⟨"B", [⟨Kind.service, "help"⟩], [⟨Kind.service, "nohelp", "C", none⟩]⟩,
   ⟨"C", [⟨Kind.service, "*"⟩], [⟨Kind.service, "*", "A", none⟩]⟩]

/-- Scenario 5 of §8: the four-account chain, before imports are added. -/
def baseS5 : List Account :=
  [⟨"A", [⟨Kind.service, "help"⟩], []⟩, ⟨"B", [⟨Kind.service, "help"⟩], []⟩,
   ⟨"C", [⟨Kind.service, "help"⟩], []⟩, ⟨"D", [⟨Kind.service, "help"⟩], []⟩]

/-- Scenario 5 of §8: A imports help from B, B from C, C from D; account
D imports nothing. -/
def declsS5 : List (String × Import) :=
  [("A", ⟨Kind.service, "help", "B", none⟩), ("B", ⟨Kind.service, "help", "C", none⟩),
   ("C", ⟨Kind.service, "help", "D", none⟩)]

/-- Scenario 5 of §8, fully built. -/
def modelS5 : List Account :=
  [⟨"A", [⟨Kind.service, "help"⟩], [⟨Kind.service, "help", "B", none⟩]⟩,
   ⟨"B", [⟨Kind.service, "help"⟩], [⟨Kind.service, "help", "C", none⟩]⟩,
   ⟨"C", [⟨Kind.service, "help"⟩], [⟨Kind.service, "help", "D", none⟩]⟩,
   ⟨"D", [⟨Kind.service, "help"⟩], []⟩]

/-- Scenario 6 of §8: accounts A and B, before imports are added. -/
def baseS6 : List Account :=
  [⟨"A", [⟨Kind.stream, "*"⟩], []⟩, ⟨"B", [⟨Kind.stream, "bar"⟩], []⟩]

/-- Scenario 6 of §8: A imports stream bar from B and B imports stream foo
from A under the local alias bar. -/
def declsS6 : List (String × Import) :=
  [("A", ⟨Kind.stream, "bar", "B", none⟩), ("B", ⟨Kind.stream, "foo", "A", some "bar"⟩)]

/-- Scenario 6 of §8, fully built. -/
def modelS6 : List Account :=
  [⟨"A", [⟨Kind.stream, "*"⟩], [⟨Kind.stream, "bar", "B", none⟩]⟩,
   ⟨"B", [⟨Kind.stream, "bar"⟩], [⟨Kind.stream, "foo", "A", some "bar"⟩]⟩]

/-- Scenario 7 of §8: accounts A, B and C, before imports are added. -/
def baseS7 : List Account :=
  [⟨"A", [⟨Kind.stream, "foo"⟩], []⟩, ⟨"B", [⟨Kind.stream, "bar"⟩], []⟩,
   ⟨"C", [⟨Kind.stream, "baz"⟩], []⟩]

/-- Scenario 7 of §8: A imports bar from B; B imports baz from C under the
alias bar; C imports foo from A under the alias bar. -/
def declsS7 : List (String × Import) :=
  [("A", ⟨Kind.stream, "bar", "B", none⟩), ("B", ⟨Kind.stream, "baz", "C", some "bar"⟩),
   ("C", ⟨Kind.stream, "foo", "A", some "bar"⟩)]

/-- Scenario 7 of §8, fully built. -/
def modelS7 : List Account :=
  [⟨"A", [⟨Kind.stream, "foo"⟩], [⟨Kind.stream, "bar", "B", none⟩]⟩,
   ⟨"B", [⟨Kind.stream, "bar"⟩], [⟨Kind.stream, "baz", "C", some "bar"⟩]⟩,
   ⟨"C", [⟨Kind.stream, "baz"⟩], [⟨Kind.stream, "foo", "A", some "bar"⟩]⟩]

/-! Embedding of the Linux TCP socket diagnostics entry point
(src/server/tcpinfo_linux.go). -/

/-- The fields of the kernel TCP_INFO record that the metrics code reads
(src/server/tcpinfo_linux.go). Each machine integer is a natural number
already reduced modulo its width at the points where the code writes it. -/
structure TCPInfo where
  Unacked : Nat
  Lost : Nat
  Retrans : Nat
  Total_retrans : Nat
  Pmtu : Nat
  Last_data_sent : Nat
  Last_data_recv : Nat
  Rtt : Nat
  Rttvar : Nat
deriving DecidableEq

/-- The zero value of `TCPInfo`, as produced by the Go zero-value reset. -/
def TCPInfo.zero : TCPInfo :=
  ⟨0, 0, 0, 0, 0, 0, 0, 0, 0⟩

/-- `TCPDiagnostics` (src/server/tcpinfo_linux.go): the TCP_INFO record
plus the unread and unsent byte counts, both 32-bit. -/
structure TCPDiagnostics where
  Info : TCPInfo
  UnreadData : Nat
  UnsentData : Nat
deriving DecidableEq

/-- A Go error value as this file produces and consumes it: the sentinel
`ErrConnectionClosed` (declared elsewhere in the repository), a raw
`syscall.Errno`, or an error built by `fmt.Errorf` that wraps an inner
error behind a message. -/
inductive GoError where
  | errConnectionClosed
  | errno (n : Nat)
  | wrapf (msg : String) (inner : GoError)
deriving DecidableEq

/-- The unwrap test of `errors.Is`: a target error matches the error
itself or, through any number of `fmt.Errorf` wrappings, its inner
error. -/
def errorIs : GoError → GoError → Bool
  | GoError.wrapf msg inner, target =>
    decide (GoError.wrapf msg inner = target) || errorIs inner target
  | e, target => decide (e = target)

/-- The outcomes of the socket operations that
`GetSocketTCPDiagnostics` performs on a non-nil connection: the result of
`conn.SyscallConn()` and, past it, the post-retry results of the
TCP_INFO, SIOCINQ and SIOCOUTQ calls (a failure carries the errno). -/
structure TCPConnModel where
  syscallConnErr : Option GoError
  tcpInfoRes : Except Nat TCPInfo
  inqRes : Except Nat Nat
  outqRes : Except Nat Nat

/-- Embedding of `GetSocketTCPDiagnostics` (src/server/tcpinfo_linux.go).
The connection is `none` for a nil `*net.TCPConn`; the caller's
diagnostics object is passed in and the final value of `*diag` is
returned next to the Go error (`none` on success). The nil-connection and
`SyscallConn` failure paths return before the code resets `*diag`, so on
those paths the object comes back untouched; afterwards `*diag` is reset
to the zero value and filled field by field as each socket operation
succeeds. -/
def GetSocketTCPDiagnostics (conn : Option TCPConnModel) (diag : TCPDiagnostics) :
    Option GoError × TCPDiagnostics :=
  match conn with
  | none =>
    (some (GoError.wrapf "GetSocketTCPDiagnostics" GoError.errConnectionClosed), diag)
  | some c =>
    match c.syscallConnErr with
    | some e => (some (GoError.wrapf "GetSocketTCPDiagnostics" e), diag)
    | none =>
      let d0 : TCPDiagnostics := ⟨TCPInfo.zero, 0, 0⟩
      match c.tcpInfoRes with
      | Except.error en =>
        (some (GoError.wrapf "GetSocketTCPDiagnostics: getsockopt(TCP_INFO) failed"
          (GoError.errno en)), d0)
      | Except.ok info =>
        let d1 : TCPDiagnostics := { d0 with Info := info }
        match c.inqRes with
        | Except.error en =>
          (some (GoError.wrapf "GetSocketTCPDiagnostics: getsockopt(SIOCINQ) failed"
            (GoError.errno en)), d1)
        | Except.ok ret =>
          let d2 : TCPDiagnostics := { d1 with UnreadData := ret % 2 ^ 32 }
          match c.outqRes with
          | Except.error en =>
            (some (GoError.wrapf "GetSocketTCPDiagnostics: getsockopt(SIOCOUTQ) failed"
              (GoError.errno en)), d2)
          | Except.ok ret2 => (none, { d2 with UnsentData := ret2 % 2 ^ 32 })

/-- Two accounts that agree on their identifier and whose import
sequences are permutations of one another; the pointwise lifting of this
relation over two models relates a model to the same model with any
account's imports traversed in a different order (§4.2, determinism). -/
def accountPermEquiv (a b : Account) : Prop :=
  a.id = b.id ∧ a.imports.Perm b.imports

/-- The number of model accounts not yet on the current search path; the
strictly decreasing measure of the depth-first search (§4.2, complexity). -/
def unvisitedCount (model : List Account) (visited : List String) : Nat :=
  (model.filter fun acct => decide (acct.id ∉ visited)).length

/-- A small two-import model used to exhibit the import-order invariance
of the cycle verdict at a concrete input. -/
def modelPermA : List Account :=
  [⟨"A", [], [⟨Kind.service, "x", "B", none⟩, ⟨Kind.service, "y", "C", none⟩]⟩,
   ⟨"B", [], []⟩, ⟨"C", [], []⟩]

/-- `modelPermA` with account A's two imports swapped. -/
def modelPermB : List Account :=
  [⟨"A", [], [⟨Kind.service, "y", "C", none⟩, ⟨Kind.service, "x", "B", none⟩]⟩,
   ⟨"B", [], []⟩, ⟨"C", [], []⟩]

/-! Helper lemmas. -/

theorem overlapsT_symm : ∀ p q : List Tok, overlapsT p q = overlapsT q p
  | [], [] => rfl
  | [], _ :: _ => rfl
  | _ :: _, [] => rfl
  | a :: as, b :: bs => by
    have ih := overlapsT_symm as bs
    have hab : (decide (a = b)) = (decide (b = a)) := by
      by_cases h : a = b
      · simp [h]
      · simp [h, Ne.symm h]
    simp only [overlapsT]
    rw [hab, ih]
    by_cases h1 : a = Tok.gt <;> by_cases h2 : b = Tok.gt <;>
      by_cases h3 : a = Tok.star <;> by_cases h4 : b = Tok.star <;>
        simp [h1, h2, h3, h4]

theorem overlapsT_refl : ∀ p : List Tok, overlapsT p p = true
  | [] => rfl
  | a :: as => by
    have ih := overlapsT_refl as
    simp only [overlapsT]
    by_cases h1 : a = Tok.gt <;> by_cases h2 : a = Tok.star <;> simp_all

theorem any_of_perm {α : Type} {l l' : List α} (h : l.Perm l') (f : α → Bool) :
    l.any f = l'.any f := by
  induction h with
  | nil => rfl
  | cons x _ ih => simp [List.any_cons, ih]
  | swap x y l =>
    simp only [List.any_cons]
    rw [← Bool.or_assoc, Bool.or_comm (f y) (f x), Bool.or_assoc]
  | trans _ _ ih1 ih2 => rw [ih1, ih2]

theorem length_filter_mono {α : Type} (l : List α) (p q : α → Bool)
    (h : ∀ x, q x = true → p x = true) :
    (l.filter q).length ≤ (l.filter p).length := by
  induction l with
  | nil => simp
  | cons a l ih =>
    by_cases hq : q a = true
    · rw [List.filter_cons_of_pos hq, List.filter_cons_of_pos (h a hq)]
      simpa using ih
    · rw [List.filter_cons_of_neg (by simp [hq])]
      by_cases hp : p a = true
      · rw [List.filter_cons_of_pos hp]
        exact Nat.le_succ_of_le ih
      · rw [List.filter_cons_of_neg (by simp [hp])]
        exact ih

theorem length_filter_lt {α : Type} (l : List α) (p q : α → Bool) (a : α)
    (hsub : ∀ x, q x = true → p x = true) (ha : a ∈ l) (hpa : p a = true)
    (hqa : q a = false) :
    (l.filter q).length < (l.filter p).length := by
  induction l with
  | nil => cases ha
  | cons b l ih =>
    rcases List.mem_cons.mp ha with rfl | hb
    · rw [List.filter_cons_of_pos hpa, List.filter_cons_of_neg (by simp [hqa])]
      exact Nat.lt_succ_of_le (length_filter_mono l p q hsub)
    · by_cases hq : q b = true
      · rw [List.filter_cons_of_pos hq, List.filter_cons_of_pos (hsub b hq)]
        exact Nat.succ_lt_succ (ih hb)
      · rw [List.filter_cons_of_neg (by simp [hq])]
        by_cases hp : p b = true
        · rw [List.filter_cons_of_pos hp]
          exact Nat.lt_succ_of_lt (ih hb)
        · rw [List.filter_cons_of_neg (by simp [hp])]
          exact ih hb

theorem searchF_fuel_congr (model : List Account) (origin : String) (k : Kind) :
    ∀ f1 f2 visited x tracked, unvisitedCount model visited < f1 →
      unvisitedCount model visited < f2 →
      searchF model origin k f1 visited x tracked =
        searchF model origin k f2 visited x tracked := by
  intro f1
  induction f1 with
  | zero =>
    intro f2 visited x tracked h1 _
    exact absurd h1 (Nat.not_lt_zero _)
  | succ n ih =>
    intro f2 visited x tracked h1 h2
    cases f2 with
    | zero => exact absurd h2 (Nat.not_lt_zero _)
    | succ m =>
      simp only [searchF]
      by_cases hxo : x = origin
      · simp [hxo]
      · simp only [if_neg hxo]
        by_cases hxv : x ∈ visited
        · simp [hxv]
        · simp only [if_neg hxv]
          cases hla : lookupAccount model x with
          | none => rfl
          | some acct =>
            have hla' : model.find? (fun acct => decide (acct.id = x)) = some acct := hla
            have hidx : acct.id = x := by
              have hp := List.find?_some hla'
              simpa using hp
            have hdec : unvisitedCount model (x :: visited) < unvisitedCount model visited := by
              simp only [unvisitedCount]
              apply length_filter_lt model _ _ acct
              · intro y hy
                rw [decide_eq_true_iff] at hy ⊢
                exact fun hmem => hy (List.mem_cons_of_mem _ hmem)
              · exact List.mem_of_find?_eq_some hla'
              · rw [decide_eq_true_iff, hidx]
                exact hxv
              · rw [decide_eq_false_iff_not, hidx]
                exact fun hne => hne (List.mem_cons_self x visited)
            have hfun : (fun j : Import =>
                decide (j.kind = k) && overlaps (importAlias j) tracked &&
                  searchF model origin k n (x :: visited) j.sourceAccount j.subject)
              = (fun j : Import =>
                decide (j.kind = k) && overlaps (importAlias j) tracked &&
                  searchF model origin k m (x :: visited) j.sourceAccount j.subject) := by
              funext j
              rw [ih m (x :: visited) j.sourceAccount j.subject (by omega) (by omega)]
            rw [hfun]

theorem lookup_of_forall₂ {m m' : List Account}
    (h : List.Forall₂ accountPermEquiv m m') (x : String) :
    (lookupAccount m x = none ∧ lookupAccount m' x = none) ∨
      ∃ a a', lookupAccount m x = some a ∧ lookupAccount m' x = some a' ∧
        accountPermEquiv a a' := by
  induction h with
  | nil => exact Or.inl ⟨rfl, rfl⟩
  | cons hab hrest ih =>
    rename_i a b l l'
    simp only [lookupAccount] at ih ⊢
    by_cases hx : a.id = x
    · have hbx : b.id = x := hab.1.symm.trans hx
      exact Or.inr ⟨a, b, List.find?_cons_of_pos _ (by simpa using hx),
        List.find?_cons_of_pos _ (by simpa using hbx), hab⟩
    · have hbx : ¬ b.id = x := fun hb => hx (hab.1.trans hb)
      rw [List.find?_cons_of_neg _ (by simpa using hx),
        List.find?_cons_of_neg _ (by simpa using hbx)]
      exact ih

theorem searchF_model_perm {m m' : List Account}
    (hm : List.Forall₂ accountPermEquiv m m') (origin : String) (k : Kind) :
    ∀ fuel visited x tracked,
      searchF m origin k fuel visited x tracked =
        searchF m' origin k fuel visited x tracked := by
  intro fuel
  induction fuel with
  | zero =>
    intro visited x tracked
    rfl
  | succ n ih =>
    intro visited x tracked
    simp only [searchF]
    by_cases hxo : x = origin
    · simp [hxo]
    · simp only [if_neg hxo]
      by_cases hxv : x ∈ visited
      · simp [hxv]
      · simp only [if_neg hxv]
        rcases lookup_of_forall₂ hm x with ⟨h1, h2⟩ | ⟨a, a', h1, h2, hid, hperm⟩
        · rw [h1, h2]
        · rw [h1, h2]
          have hfun : (fun j : Import =>
              decide (j.kind = k) && overlaps (importAlias j) tracked &&
                searchF m origin k n (x :: visited) j.sourceAccount j.subject)
            = (fun j : Import =>
              decide (j.kind = k) && overlaps (importAlias j) tracked &&
                searchF m' origin k n (x :: visited) j.sourceAccount j.subject) := by
            funext j
            rw [ih (x :: visited) j.sourceAccount j.subject]
          rw [hfun]
          exact any_of_perm hperm _

/-! The checked properties. -/

/-- C1: For the three-account stream model of §8 scenario 7 — A exports
foo and imports bar from B; B exports bar and imports baz from C under
the local alias bar; C exports baz and imports foo from A under the local
alias bar — cycle validation reports no cycle for any of the three
imports of the built model and configuration processing accepts the
model; the alias bar does not overlap the subject baz, which is what cuts
the search short of the originating account. -/
theorem scenario7_stream_rename_no_cycle :
    processConfig baseS7 declsS7 = true ∧
    FormsCycle modelS7 "A" Kind.stream "bar" "B" = false ∧
    FormsCycle modelS7 "B" Kind.stream "baz" "C" = false ∧
    FormsCycle modelS7 "C" Kind.stream "foo" "A" = false ∧
    overlaps "bar" "baz" = false := by
  decide

/-- C2: For the two-account stream model of §8 scenario 6 — A exports the
single-token wildcard and imports bar from B; B exports bar and imports
foo from A under the local alias bar — cycle validation detects a cycle
for A's import of bar from B, and configuration processing rejects the
model. -/
theorem scenario6_stream_rename_cycle :
    processConfig baseS6 declsS6 = false ∧
    FormsCycle modelS6 "A" Kind.stream "bar" "B" = true := by
  decide

/-- C3: For the two-account service model of §8 scenario 1 — A exports
service help and imports service help from B, while B exports service
help and imports service help from A — cycle validation detects the
direct mutual dependency and configuration processing rejects the
model. -/
theorem scenario1_service_mutual_cycle :
    processConfig baseS1 declsS1 = false ∧
    FormsCycle modelS1 "A" Kind.service "help" "B" = true := by
  decide

/-- C4: For the three-account service model of §8 scenario 4 — the
A-to-B-to-C-to-A shape of scenario 3 but with B importing nohelp from C —
cycle validation reports no cycle for A's import and configuration
processing accepts the model; the literal subjects help and nohelp do not
overlap, which is what breaks the chain before it returns to A. -/
theorem scenario4_service_no_cycle :
    processConfig baseS4 declsS4 = true ∧
    FormsCycle modelS4 "A" Kind.service "help" "B" = false ∧
    overlaps "help" "nohelp" = false := by
  decide

/-- C5: For the four-account service chain of §8 scenario 5 — A imports
help from B, B from C, C from D, and D has no import — configuration
processing accepts the model; and in general an account with no imports
of the checked kind is only ever a terminus of the search, never a hop:
whenever the search reaches such an account other than the original
importer, it reports no cycle for that branch, whatever the fuel, the
visited path and the tracked subject. -/
theorem scenario5_chain_no_cycle_and_terminus :
    processConfig baseS5 declsS5 = true ∧
    ∀ (model : List Account) (origin : String) (k : Kind) (x : String)
      (acct : Account) (fuel : Nat) (visited : List String) (tracked : String),
      lookupAccount model x = some acct →
      (∀ j ∈ acct.imports, j.kind ≠ k) →
      x ≠ origin →
      searchF model origin k fuel visited x tracked = false := by
  constructor
  · decide
  · intro model origin k x acct fuel visited tracked hla hno hxo
    cases fuel with
    | zero => rfl
    | succ n =>
      simp only [searchF, if_neg hxo]
      by_cases hxv : x ∈ visited
      · simp [hxv]
      · simp only [if_neg hxv, hla]
        rw [List.any_eq_false]
        intro j hj
        simp [hno j hj]

/-- Witness for C5, at account D of the fully built scenario-5 model. -/
theorem scenario5_chain_terminus_witness :
    lookupAccount modelS5 "D" = some ⟨"D", [⟨Kind.service, "help"⟩], []⟩ ∧
    searchF modelS5 "A" Kind.service 5 ["A", "C", "B"] "D" "help" = false :=
  ⟨by decide, scenario5_chain_no_cycle_and_terminus.2 modelS5 "A" Kind.service "D"
    ⟨"D", [⟨Kind.service, "help"⟩], []⟩ 5 ["A", "C", "B"] "help" (by decide)
    (by intro j hj; cases hj) (by decide)⟩

/-- C6: the subject pattern matcher is symmetric: for every pair of
subject patterns, `overlaps` gives the same verdict in either order. -/
theorem overlaps_symm (p q : String) : overlaps p q = overlaps q p :=
  overlapsT_symm (tokenize p) (tokenize q)

/-- C7: the subject pattern matcher is reflexive: every well-formed
subject pattern overlaps itself. -/
theorem overlaps_refl (p : String) (_h : wellFormed p = true) :
    overlaps p p = true :=
  overlapsT_refl (tokenize p)

/-- Witness for C7 at a concrete well-formed pattern. -/
theorem overlaps_refl_witness :
    wellFormed "foo.*" = true ∧ overlaps "foo.*" "foo.*" = true :=
  ⟨by decide, overlaps_refl "foo.*" (by decide)⟩

/-- C8: the depth-first search always terminates within the account-count
budget: any fuel above the number of accounts yields exactly the verdict
of `FormsCycle`, whose fixed budget is the account count plus one, so the
computation is bounded by the number of accounts (each visited at most
once per search path) and their import counts. -/
theorem formsCycle_fuel_bounded (model : List Account) (a : String) (k : Kind)
    (s b : String) (fuel : Nat) (h : model.length < fuel) :
    searchF model a k fuel [a] b s = FormsCycle model a k s b := by
  have hle : unvisitedCount model [a] ≤ model.length :=
    List.length_filter_le _ _
  exact searchF_fuel_congr model a k fuel (model.length + 1) [a] b s
    (Nat.lt_of_le_of_lt hle h) (Nat.lt_succ_of_le hle)

/-- Witness for C8 on the scenario-1 model with a larger fuel budget. -/
theorem formsCycle_fuel_bounded_witness :
    modelS1.length < 7 ∧
    searchF modelS1 "A" Kind.service 7 ["A"] "B" "help" =
      FormsCycle modelS1 "A" Kind.service "help" "B" :=
  ⟨by decide, formsCycle_fuel_bounded modelS1 "A" Kind.service "help" "B" 7 (by decide)⟩

/-- C9: the cycle verdict does not depend on the traversal order of any
account's imports: for models that agree on account identifiers and whose
accounts' import sequences are permutations of one another, `FormsCycle`
returns the same boolean; and re-running it on the same model yields the
same verdict. -/
theorem formsCycle_order_invariant (m m' : List Account)
    (hm : List.Forall₂ accountPermEquiv m m') (a : String) (k : Kind)
    (s b : String) :
    FormsCycle m a k s b = FormsCycle m' a k s b ∧
    FormsCycle m a k s b = FormsCycle m a k s b := by
  refine ⟨?_, rfl⟩
  have hlen : m.length = m'.length := List.Forall₂.length_eq hm
  simp only [FormsCycle, hlen]
  exact searchF_model_perm hm a k (m'.length + 1) [a] b s

/-- Witness for C9: the two-import model and its swapped variant give the
same verdict. -/
theorem formsCycle_order_invariant_witness :
    List.Forall₂ accountPermEquiv modelPermA modelPermB ∧
    FormsCycle modelPermA "A" Kind.service "x" "B" =
      FormsCycle modelPermB "A" Kind.service "x" "B" := by
  have hperm : List.Forall₂ accountPermEquiv modelPermA modelPermB :=
    List.Forall₂.cons ⟨rfl, List.Perm.swap _ _ _⟩
      (List.Forall₂.cons ⟨rfl, List.Perm.refl _⟩
        (List.Forall₂.cons ⟨rfl, List.Perm.refl _⟩ List.Forall₂.nil))
  exact ⟨hperm,
    (formsCycle_order_invariant modelPermA modelPermB hperm "A" Kind.service "x" "B").1⟩

/-- C10: calling `GetSocketTCPDiagnostics` with a nil connection returns
a non-nil error that wraps `ErrConnectionClosed`, and the caller's
diagnostics object is returned completely unchanged: this path returns
before the unconditional reset of the object to the zero value. -/
theorem getSocketTCPDiagnostics_nil_conn (diag : TCPDiagnostics) :
    (GetSocketTCPDiagnostics none diag).1.isSome = true ∧
    ((GetSocketTCPDiagnostics none diag).1.map
      (fun e => errorIs e GoError.errConnectionClosed)) = some true ∧
    (GetSocketTCPDiagnostics none diag).2 = diag :=
  ⟨rfl, rfl, rfl⟩
